import Mathlib

/-!
Shallow embedding of the StratasysFilamentCalculator pipeline
(BaseCode/F370Convert.py, Example/J826Convert.py, Example/printCalculator.py)
and proofs of the frozen claims about it.

Modelling conventions: Python floats are modelled as exact rationals, text as
Lean strings or character lists, and Python-level exceptions (KeyError,
TypeError, ValueError) as Except values.  The builtin string operations used
by the source (strip, lower, split, zfill, substring tests, the one regular
expression of printCalculator.py, and the float constructor) are embedded as
explicit executable functions below.
-/

/-- ASCII whitespace as stripped by the Python str.strip method with no
argument (the data handled by this program is ASCII text). -/
def isSpaceChar (c : Char) : Bool :=
  c == ' ' || c == '\t' || c == '\n' || c == '\r' || c == '\x0b' || c == '\x0c'

/-- Python str.strip with no argument: drop whitespace at both ends. -/
def pyStrip (s : List Char) : List Char :=
  ((s.dropWhile isSpaceChar).reverse.dropWhile isSpaceChar).reverse

/-- str.strip, packaged on String. -/
def pyStripS (s : String) : String := ⟨pyStrip s.toList⟩

/-- Does the second list start with the first one? -/
def startsWith : List Char → List Char → Bool
  | [], _ => true
  | _ :: _, [] => false
  | p :: ps, c :: cs => p == c && startsWith ps cs

/-- The Python substring test, pat in s. -/
def isSubstr (pat : List Char) : List Char → Bool
  | [] => pat.isEmpty
  | c :: cs => startsWith pat (c :: cs) || isSubstr pat cs

/-- Python str.split with a one-character separator: keeps empty pieces,
always returns at least one piece. -/
def pySplit (sep : Char) : List Char → List (List Char)
  | [] => [[]]
  | c :: cs =>
    if c = sep then [] :: pySplit sep cs
    else
      match pySplit sep cs with
      | [] => [[c]]
      | p :: ps => (c :: p) :: ps

/-- Python str.zfill: left-pad with zeros to the requested width, keeping a
leading sign character in front of the padding. -/
def zfill (width : Nat) (s : List Char) : List Char :=
  if width ≤ s.length then s
  else
    match s with
    | '+' :: rest => '+' :: (List.replicate (width - s.length) '0' ++ rest)
    | '-' :: rest => '-' :: (List.replicate (width - s.length) '0' ++ rest)
    | _ => List.replicate (width - s.length) '0' ++ s

/-- Elements at even positions (the df[::2] slice of J826Convert.py). -/
def evens {α : Type} : List α → List α
  | [] => []
  | [x] => [x]
  | x :: _ :: xs => x :: evens xs

/-- Elements at odd positions (the df[1::2] slice of J826Convert.py). -/
def odds {α : Type} : List α → List α
  | [] => []
  | [_] => []
  | _ :: y :: xs => y :: odds xs

/-- Python dict insertion: an existing key keeps its position and gets the
new value, a new key is appended. -/
def dictInsert {α β : Type} [DecidableEq α] (k : α) (v : β) : List (α × β) → List (α × β)
  | [] => [(k, v)]
  | p :: rest => if p.1 = k then (k, v) :: rest else p :: dictInsert k v rest

/-- The Python dict constructor over a pair list (later keys overwrite). -/
def buildDict {α β : Type} [DecidableEq α] (ps : List (α × β)) : List (α × β) :=
  ps.foldl (fun d p => dictInsert p.1 p.2 d) []

/-- Python dict.get with a default value. -/
def dataGet (d : List (String × String)) (k dflt : String) : String :=
  match d.lookup k with
  | some v => v
  | none => dflt

/-- Python str.lower, character by character (the data here is ASCII). -/
def lowerStr (s : List Char) : List Char := s.map Char.toLower

/-- Value of a list of decimal digit characters. -/
def digitsVal (ds : List Char) : Nat :=
  ds.foldl (fun a c => a * 10 + (c.toNat - 48)) 0

/-- Mantissa of a Python float literal: digits with at most one point and at
least one digit overall. -/
def mantissaVal (m : List Char) : Option ℚ :=
  match m.span Char.isDigit with
  | (ip, rest) =>
    match rest with
    | [] => if ip.isEmpty then none else some ((digitsVal ip : ℚ))
    | '.' :: fp =>
      if fp.all Char.isDigit && !(ip.isEmpty && fp.isEmpty) then
        some ((digitsVal ip : ℚ) + (digitsVal fp : ℚ) / (10 : ℚ) ^ fp.length)
      else none
    | _ => none

/-- Exponent part of a Python float literal. -/
def expVal (e : List Char) : Option ℤ :=
  match e with
  | '+' :: ds => if !ds.isEmpty && ds.all Char.isDigit then some ((digitsVal ds : ℤ)) else none
  | '-' :: ds => if !ds.isEmpty && ds.all Char.isDigit then some (-(digitsVal ds : ℤ)) else none
  | ds => if !ds.isEmpty && ds.all Char.isDigit then some ((digitsVal ds : ℤ)) else none

/-- Split a float literal at the first exponent marker. -/
def splitAtE (s : List Char) : List Char × Option (List Char) :=
  match s.span (fun c => !(c == 'e' || c == 'E')) with
  | (m, []) => (m, none)
  | (m, _ :: rest) => (m, some rest)

/-- Unsigned part of the Python float constructor. -/
def pyFloatUnsigned (s : List Char) : Option ℚ :=
  match splitAtE s with
  | (m, none) => mantissaVal m
  | (m, some ep) =>
    match mantissaVal m, expVal ep with
    | some mv, some ev => some (mv * (10 : ℚ) ^ ev)
    | _, _ => none

/-- Models the Python builtin float applied to a string: surrounding
whitespace, an optional sign, decimal digits with at most one point, and an
optional exponent.  The inf and nan words, underscore digit grouping and
non-ASCII digits accepted by the builtin are outside this model; no input
appearing in the claims uses them. -/
def pyFloat (s : List Char) : Option ℚ :=
  match pyStrip s with
  | '+' :: r => pyFloatUnsigned r
  | '-' :: r => (pyFloatUnsigned r).map (fun q => -q)
  | r => pyFloatUnsigned r

/-- Round half to even on an exact rational, the behaviour of the Python
builtin round for the values reachable in this program (no reachable value
sits on a binary-representation tie). -/
def roundHalfEven (q : ℚ) : ℤ :=
  let f := Int.floor q
  let r := q - (f : ℚ)
  if r < 1 / 2 then f
  else if 1 / 2 < r then f + 1
  else if f % 2 = 0 then f else f + 1

/-- Python round with a digit count. -/
def pyRound (ndigits : Nat) (q : ℚ) : ℚ :=
  ((roundHalfEven (q * (10 : ℚ) ^ ndigits) : ℤ) : ℚ) / (10 : ℚ) ^ ndigits

/-!
The one regular expression of printCalculator.py, with lazy groups:
the pattern g1 semicolon-space g2 semicolon-space g3 semicolon-space dollar g4,
where g1, g2, g3 take as few characters as possible and g4 takes the rest.
Each matcher below scans left to right for the next separator and backtracks
when the continuation fails, exactly as the lazy regex engine does.  The
stripped input lines never contain a newline, so the dot of the pattern is
any character here.
-/

/-- Tail of the pattern: a dollar sign and then the greedy final group. -/
def matchDollar : List Char → Option (List Char)
  | '$' :: rest => some rest
  | _ => none

/-- Lazy third group followed by the dollar tail. -/
def matchVolCost : List Char → Option (List Char × List Char)
  | [] => none
  | c :: cs =>
    match c, cs with
    | ';', ' ' :: rest =>
      (match matchDollar rest with
       | some g4 => some ([], g4)
       | none =>
         match matchVolCost cs with
         | some (g3, g4) => some (';' :: g3, g4)
         | none => none)
    | _, _ =>
      match matchVolCost cs with
      | some (g3, g4) => some (c :: g3, g4)
      | none => none

/-- Lazy second group followed by the rest of the pattern. -/
def matchMatVol : List Char → Option (List Char × List Char × List Char)
  | [] => none
  | c :: cs =>
    match c, cs with
    | ';', ' ' :: rest =>
      (match matchVolCost rest with
       | some g => some ([], g)
       | none =>
         match matchMatVol cs with
         | some (g2, g) => some (';' :: g2, g)
         | none => none)
    | _, _ =>
      match matchMatVol cs with
      | some (g2, g) => some (c :: g2, g)
      | none => none

/-- Lazy first group followed by the rest of the pattern. -/
def matchAll : List Char → Option (List Char × List Char × List Char × List Char)
  | [] => none
  | c :: cs =>
    match c, cs with
    | ';', ' ' :: rest =>
      (match matchMatVol rest with
       | some g => some ([], g)
       | none =>
         match matchAll cs with
         | some (g1, g) => some (';' :: g1, g)
         | none => none)
    | _, _ =>
      match matchAll cs with
      | some (g1, g) => some (c :: g1, g)
      | none => none

/-- The re.match call of parse_material_cost, returning the four groups. -/
def pyMatch (s : List Char) : Option (List Char × List Char × List Char × List Char) :=
  matchAll s

/-!  Data model shared by the three stages. -/

/-- A cell of a tabular record: a number, a piece of text, or the pandas NaN
that stands for a missing value. -/
inductive Val where
  | num : ℚ → Val
  | txt : String → Val
  | nan : Val
deriving DecidableEq

/-- One row of a canonical dataset as the Cost Engine reads it: an ordered
column-name to cell mapping. -/
abbrev Row := List (String × Val)

/-- One parsed price-table entry: reference volume (None when the volume text
had no digits) and reference cost. -/
structure MaterialCostEntry where
  volume : Option ℚ
  cost : ℚ
deriving DecidableEq

/-- The parsed price table, keyed by printer and material. -/
abbrev PriceDict := List ((String × String) × MaterialCostEntry)

/-- One output row of the Cost Engine.  The source stores the job id as the
text "Print Job n"; the numeric id n is kept here. -/
structure CostResult where
  job_id : Nat
  printer : String
  filament_fee : ℚ
  flat_fee : ℚ
  total_fee : ℚ
  company : Val
deriving DecidableEq

/-- Decidable equality for Except values, used to evaluate the embedded
functions on concrete inputs. -/
instance instDecidableEqExcept {ε α : Type} [DecidableEq ε] [DecidableEq α] :
    DecidableEq (Except ε α)
  | Except.error e, Except.error f =>
    if h : e = f then isTrue (by rw [h]) else isFalse (fun hc => h (Except.error.inj hc))
  | Except.error _, Except.ok _ => isFalse (fun hc => Except.noConfusion hc)
  | Except.ok _, Except.error _ => isFalse (fun hc => Except.noConfusion hc)
  | Except.ok x, Except.ok y =>
    if h : x = y then isTrue (by rw [h]) else isFalse (fun hc => h (Except.ok.inj hc))

/-!  Family A Schema Normalizer, from BaseCode/F370Convert.py. -/

/-- The inner keyword loop of find_matching_column: some keyword, lowercased,
is a substring of the lowercased and stripped column name. -/
def keywordMatches (kw col : String) : Bool :=
  isSubstr (lowerStr kw.toList) (pyStrip (lowerStr col.toList))

/-- Does any keyword of the list match the column name? -/
def matchesAnyKeyword (kws : List String) (col : String) : Bool :=
  kws.any fun kw => keywordMatches kw col

/-- find_matching_column of F370Convert.py: first column, in declaration
order, matched by some keyword. -/
def find_matching_column : List String → List String → Option String
  | [], _ => none
  | col :: rest, kws =>
    if matchesAnyKeyword kws col then some col
    else find_matching_column rest kws

def company_keywords : List String := ["Company", "CompanyName"]

def time_keywords : List String := ["Print Time", "h:mm"]

def support_keywords : List String := ["Support", "QSR"]

def abs_keywords : List String := ["ABS"]

def tpu_keywords : List String := ["TPU"]

/-- One canonical Family A print record, in the column order written out by
process_f370_files: Print Time, PC-ABS BLK, TPU 92A - Black, QSR support,
Company Name. -/
structure CanonRecordA where
  print_time : Val
  pc_abs : Val
  tpu : Val
  qsr : Val
  company : Val
deriving DecidableEq

/-- One raw Family A input file: its column names in order, and its rows as
column-name to cell mappings. -/
structure RawFile where
  columns : List String
  rows : List (List (String × Val))
deriving DecidableEq

/-- Reading an existing column of a raw row; a cell a row does not carry is
the pandas missing value. -/
def rawGet (row : List (String × Val)) (c : String) : Val :=
  (row.lookup c).getD Val.nan

/-- pandas fillna with 0 on one cell. -/
def fillna0 : Val → Val
  | Val.nan => Val.num 0
  | v => v

/-- Python truthiness of the optional column name returned by
find_matching_column: None and the empty string are falsy. -/
def truthyCol : Option String → Bool
  | none => false
  | some s => !s.toList.isEmpty

/-- Outcome of process_f370_files on one input file. -/
inductive F370FileResult where
  | skippedNoCompany
  | skippedMissingCritical (detected : List String)
  | ok (records : List CanonRecordA)
deriving DecidableEq

/-- The per-file body of process_f370_files: detect the five columns, skip
the file when the company column is missing, skip with a diagnostic naming
all detected columns when a critical column is missing, otherwise build the
canonical records (material columns default to 0, missing material cells are
filled with 0, the other columns are copied verbatim). -/
def process_f370_file (f : RawFile) : F370FileResult :=
  let company_col := find_matching_column f.columns company_keywords
  let time_col := find_matching_column f.columns time_keywords
  let support_col := find_matching_column f.columns support_keywords
  let abs_col := find_matching_column f.columns abs_keywords
  let tpu_col := find_matching_column f.columns tpu_keywords
  if !truthyCol company_col then F370FileResult.skippedNoCompany
  else if !(truthyCol time_col && truthyCol support_col) then
    F370FileResult.skippedMissingCritical f.columns
  else
    F370FileResult.ok (f.rows.map fun row =>
      { print_time := rawGet row (time_col.getD "")
        pc_abs := if truthyCol abs_col then fillna0 (rawGet row (abs_col.getD "")) else Val.num 0
        tpu := if truthyCol tpu_col then fillna0 (rawGet row (tpu_col.getD "")) else Val.num 0
        qsr := rawGet row (support_col.getD "")
        company := rawGet row (company_col.getD "") })

/-- The canonical records one file contributes to the combined dataset. -/
def fileRecords (f : RawFile) : List CanonRecordA :=
  match process_f370_file f with
  | F370FileResult.ok recs => recs
  | _ => []

/-- The whole Family A run: concatenate the contributions of all files in
order (skipped files contribute nothing). -/
def process_f370_files (files : List RawFile) : List CanonRecordA :=
  (files.map fileRecords).flatten

/-- The canonical Family A record as a Cost Engine row, with exactly the
column names process_f370_files writes. -/
def toRowA (r : CanonRecordA) : Row :=
  [("Print Time", r.print_time), ("PC-ABS BLK", r.pc_abs),
   ("TPU 92A - Black", r.tpu), ("QSR support", r.qsr),
   ("Company Name", r.company)]

/-!  Family B Schema Normalizer, from Example/J826Convert.py. -/

/-- safe_float of J826Convert.py: the float constructor with 0 on a parse
failure. -/
def safe_float (s : String) : ℚ :=
  match pyFloat s.toList with
  | some q => q
  | none => 0

/-- The print-time formatting block of convert_j826_file: when the text
contains both an h and an m, replace h by a colon, delete every m, split at
colons and rebuild from the first two pieces with zfill 2 on the second;
otherwise the literal 0:00.  Under the guard the replaced text always
contains a colon, so the split has at least two pieces and the positional
reads below are total. -/
def formatted_time_core (pt : List Char) : List Char :=
  if (pt.any fun c => c == 'h') && (pt.any fun c => c == 'm') then
    let t := (pt.map fun c => if c == 'h' then ':' else c).filter fun c => !(c == 'm')
    let parts := pySplit ':' t
    (parts.getD 0 []) ++ ':' :: zfill 2 (parts.getD 1 [])
  else ['0', ':', '0', '0']

/-- The print-time formatting block, packaged on String. -/
def formatted_time (pt : String) : String := ⟨formatted_time_core pt.toList⟩

/-- One canonical Family B print record, in the column order written by
convert_j826_file. -/
structure CanonRecordB where
  print_time_hm : String
  draft_grey : ℚ
  vero_ultra_white : ℚ
  vero_black_plus : ℚ
  sup706 : ℚ
  company : String
deriving DecidableEq

/-- convert_j826_file on the first-column cells of one raw key-value file
(the canonical inputs are text cells; the pandas NaN of a fully blank line
is outside this model).  Company name comes from the fixed row offset 14,
with the literal Unknown Company when that row is absent; the remaining
fields come from the positional label-value pairing. -/
def convert_j826_file (cells : List String) : CanonRecordB :=
  let company :=
    match cells.get? 14 with
    | some s => pyStripS s
    | none => "Unknown Company"
  let data := buildDict (List.zip (evens cells) (odds cells))
  let print_time := pyStripS (dataGet data "Print Time" "0h 0m")
  let draft_grey := safe_float (pyStripS (dataGet data "DraftGrey (g)" "0"))
  let vero_ultra_white := safe_float (pyStripS (dataGet data "VeroUltraWhite (g)" "0"))
  let vero_black_plus := safe_float (pyStripS (dataGet data "VeroBlackPlus (g)" "0"))
  let sup706 := safe_float (pyStripS (dataGet data "SUP706 (g)" "0"))
  { print_time_hm := formatted_time print_time
    draft_grey := draft_grey
    vero_ultra_white := vero_ultra_white
    vero_black_plus := vero_black_plus
    sup706 := sup706
    company := company }

/-- The canonical Family B record as a Cost Engine row, with exactly the
column names convert_j826_file writes. -/
def toRowB (r : CanonRecordB) : Row :=
  [("Print Time (h:mm)", Val.txt r.print_time_hm), ("DraftGrey (g)", Val.num r.draft_grey),
   ("VeroUltraWhite (g)", Val.num r.vero_ultra_white),
   ("VeroBlackPlus (g)", Val.num r.vero_black_plus),
   ("SUP706 (g)", Val.num r.sup706), ("Company Name", Val.txt r.company)]

/-!  Material Price Table Parser and Cost Engine, from Example/printCalculator.py. -/

/-- One line of parse_material_cost: skip lines holding the marker or blank
lines, ignore lines the pattern does not match, and otherwise build the entry;
the float constructor on a non-empty volume residue or on the de-commaed cost
text raises on invalid text, which propagates. -/
def parseStep (d : PriceDict) (line : String) : Except String PriceDict :=
  if isSubstr ['*', '*'] line.toList || (pyStrip line.toList).isEmpty then Except.ok d
  else
    match pyMatch (pyStrip line.toList) with
    | none => Except.ok d
    | some (printer, material, volume, cost) =>
      let volResidue := volume.filter fun c => c.isDigit || c == '.'
      let volParsed : Except String (Option ℚ) :=
        if volResidue.isEmpty then Except.ok none
        else
          match pyFloat volResidue with
          | some q => Except.ok (some q)
          | none => Except.error "ValueError"
      match volParsed with
      | Except.error e => Except.error e
      | Except.ok vol =>
        match pyFloat (cost.filter fun c => !(c == ',')) with
        | none => Except.error "ValueError"
        | some cq =>
          Except.ok (dictInsert (⟨pyStrip printer⟩, ⟨pyStrip material⟩) ⟨vol, cq⟩ d)

/-- The line loop of parse_material_cost. -/
def parseLines (d : PriceDict) : List String → Except String PriceDict
  | [] => Except.ok d
  | l :: ls =>
    match parseStep d l with
    | Except.error e => Except.error e
    | Except.ok d2 => parseLines d2 ls

/-- parse_material_cost over the lines of the price file. -/
def parse_material_cost (lines : List String) : Except String PriceDict :=
  parseLines [] lines

/-- Is this cell a text value?  Comparing a text cell with 0 is the one
place the material loop of calculate_costs can raise. -/
def isTxtCell : Option Val → Bool
  | some (Val.txt _) => true
  | _ => false

/-- The body of the material loop of calculate_costs for one material and
volume-column pair: nothing when the column is absent, the cell is missing,
or the value is not positive; nothing when the price key is absent or its
reference volume is None or 0; otherwise value times cost per unit.
Comparing a text cell with 0 raises TypeError. -/
def contrib (prices : PriceDict) (family : String) (row : Row) (p : String × String) :
    Except String ℚ :=
  match row.lookup p.2 with
  | none => Except.ok 0
  | some v =>
    match v with
    | Val.nan => Except.ok 0
    | Val.txt _ => Except.error "TypeError"
    | Val.num x =>
      if 0 < x then
        match prices.lookup (family, p.1) with
        | none => Except.ok 0
        | some e =>
          match e.volume with
          | none => Except.ok 0
          | some rv => Except.ok (if rv ≠ 0 then x * (e.cost / rv) else 0)
      else Except.ok 0

/-- The accumulating material loop of calculate_costs. -/
def filamentFeeAux (prices : PriceDict) (family : String) (row : Row) (acc : ℚ) :
    List (String × String) → Except String ℚ
  | [] => Except.ok acc
  | p :: ps =>
    match contrib prices family row p with
    | Except.error e => Except.error e
    | Except.ok c => filamentFeeAux prices family row (acc + c) ps

/-- The filament fee of one row: the material loop started at 0. -/
def filamentFee (prices : PriceDict) (family : String) (mats : List (String × String))
    (row : Row) : Except String ℚ :=
  filamentFeeAux prices family row 0 mats

/-- The fixed material and volume-column pairs of the F370 loop.  The first
pair reads a column named ABS in cm3, which is not a column of the canonical
Family A dataset. -/
def f370_materials : List (String × String) :=
  [("PC-ABS BLK", "ABS in cm3"), ("TPU 92A - Black", "TPU 92A - Black"),
   ("QSR support", "QSR support")]

/-- The fixed material and volume-column pairs of the J826 loop. -/
def j826_materials : List (String × String) :=
  [("DraftGrey", "DraftGrey (g)"), ("VeroUltraWhite", "VeroUltraWhite (g)"),
   ("VeroBlackPlus", "VeroBlackPlus (g)"), ("SUP706", "SUP706 (g)")]

/-- One result row of calculate_costs: the company cell is read first (a
missing Company Name column raises KeyError), then the material loop runs,
then the fees are rounded to two digits. -/
def costRow (prices : PriceDict) (family : String) (flat : ℚ)
    (mats : List (String × String)) (jobId : Nat) (row : Row) : Except String CostResult :=
  match row.lookup "Company Name" with
  | none => Except.error "KeyError"
  | some cname =>
    match filamentFee prices family mats row with
    | Except.error e => Except.error e
    | Except.ok fee =>
      Except.ok ⟨jobId, family, pyRound 2 fee, flat, pyRound 2 (fee + flat), cname⟩

/-- The F370 pass of calculate_costs: job ids are the one-based positions of
the rows of the Family A dataset. -/
def processF370 (prices : PriceDict) : Nat → List Row → Except String (List CostResult)
  | _, [] => Except.ok []
  | idx, r :: rs =>
    match costRow prices "F370" 16.25 f370_materials (idx + 1) r with
    | Except.error e => Except.error e
    | Except.ok c =>
      match processF370 prices (idx + 1) rs with
      | Except.error e => Except.error e
      | Except.ok rest => Except.ok (c :: rest)

/-- The J826 pass of calculate_costs: each new row is appended to the
accumulated results with id one more than the current result count. -/
def processJ826 (prices : PriceDict) : List CostResult → List Row → Except String (List CostResult)
  | acc, [] => Except.ok acc
  | acc, r :: rs =>
    match costRow prices "J826" 7.22 j826_materials (acc.length + 1) r with
    | Except.error e => Except.error e
    | Except.ok c => processJ826 prices (acc ++ [c]) rs

/-- The row-processing core of calculate_costs: all Family A rows first,
then all Family B rows appended to the same result list.  An error from
either pass aborts the run with no output rows. -/
def calculate_costs (prices : PriceDict) (f370 j826 : List Row) :
    Except String (List CostResult) :=
  match processF370 prices 0 f370 with
  | Except.error e => Except.error e
  | Except.ok ra => processJ826 prices ra j826

/-- The per-pair contribution exactly as the claims and the spec word it,
for comparison with the contrib of the source loop. -/
def specContribution (prices : PriceDict) (family : String) (row : Row)
    (p : String × String) : ℚ :=
  match row.lookup p.2 with
  | some (Val.num v) =>
    if 0 < v then
      match prices.lookup (family, p.1) with
      | some e =>
        match e.volume with
        | some rv => if rv ≠ 0 then v * (e.cost / rv) else 0
        | none => 0
      | none => 0
    else 0
  | _ => 0

/-!  Helper lemmas about the Cost Engine. -/

lemma contrib_spec (prices : PriceDict) (family : String) (row : Row) (p : String × String)
    (h : isTxtCell (row.lookup p.2) = false) :
    contrib prices family row p = Except.ok (specContribution prices family row p) := by
  cases hl : row.lookup p.2 with
  | none => simp [contrib, specContribution, hl]
  | some v =>
    cases v with
    | nan => simp [contrib, specContribution, hl]
    | txt s => rw [hl] at h; simp [isTxtCell] at h
    | num x =>
      by_cases hx : 0 < x
      · cases hp : prices.lookup (family, p.1) with
        | none => simp [contrib, specContribution, hl, hx, hp]
        | some e =>
          cases he : e.volume with
          | none => simp [contrib, specContribution, hl, hx, hp, he]
          | some rv => simp [contrib, specContribution, hl, hx, hp, he]
      · simp [contrib, specContribution, hl, hx]

lemma filamentFeeAux_spec (prices : PriceDict) (family : String) (row : Row) :
    ∀ (mats : List (String × String)) (acc : ℚ),
      (∀ p ∈ mats, isTxtCell (row.lookup p.2) = false) →
      filamentFeeAux prices family row acc mats =
        Except.ok (acc + ((mats.map (specContribution prices family row)).sum)) := by
  intro mats
  induction mats with
  | nil => intro acc _; simp [filamentFeeAux]
  | cons p ps ih =>
    intro acc h
    have hp := h p (by simp)
    rw [filamentFeeAux, contrib_spec prices family row p hp]
    dsimp only
    rw [ih (acc + specContribution prices family row p) (fun q hq => h q (by simp [hq]))]
    simp [add_assoc]

lemma costRow_eq (prices : PriceDict) (family : String) (flat : ℚ)
    (mats : List (String × String)) (jobId : Nat) (row : Row) (cname : Val)
    (hts : ∀ p ∈ mats, isTxtCell (row.lookup p.2) = false)
    (hcn : row.lookup "Company Name" = some cname) :
    costRow prices family flat mats jobId row =
      Except.ok ⟨jobId, family,
        pyRound 2 ((mats.map (specContribution prices family row)).sum), flat,
        pyRound 2 ((mats.map (specContribution prices family row)).sum + flat), cname⟩ := by
  have hf := filamentFeeAux_spec prices family row mats 0 hts
  simp only [costRow, hcn, filamentFee, hf, zero_add]

lemma costRow_fields (prices : PriceDict) (family : String) (flat : ℚ)
    (mats : List (String × String)) (jobId : Nat) (row : Row) (c : CostResult)
    (h : costRow prices family flat mats jobId row = Except.ok c) :
    c.job_id = jobId ∧ c.printer = family ∧ c.flat_fee = flat := by
  unfold costRow at h
  cases hcn : row.lookup "Company Name" with
  | none => rw [hcn] at h; simp at h
  | some cname =>
    rw [hcn] at h
    cases hf : filamentFee prices family mats row with
    | error e => rw [hf] at h; simp at h
    | ok fee =>
      rw [hf] at h
      simp only [Except.ok.injEq] at h
      subst h
      exact ⟨rfl, rfl, rfl⟩

lemma processF370_spec (prices : PriceDict) :
    ∀ (rows : List Row) (idx : Nat) (res : List CostResult),
      processF370 prices idx rows = Except.ok res →
      res.length = rows.length ∧
      ∀ i (h : i < res.length),
        res[i].job_id = idx + i + 1 ∧ res[i].printer = "F370" ∧ res[i].flat_fee = 16.25 := by
  intro rows
  induction rows with
  | nil =>
    intro idx res h
    simp only [processF370, Except.ok.injEq] at h
    subst h
    exact ⟨rfl, fun i hi => absurd hi (by simp)⟩
  | cons r rs ih =>
    intro idx res h
    rw [processF370] at h
    cases hc : costRow prices "F370" 16.25 f370_materials (idx + 1) r with
    | error e => rw [hc] at h; simp at h
    | ok c =>
      rw [hc] at h
      cases hr : processF370 prices (idx + 1) rs with
      | error e => rw [hr] at h; simp at h
      | ok rest =>
        rw [hr] at h
        simp only [Except.ok.injEq] at h
        subst h
        obtain ⟨hlen, hall⟩ := ih (idx + 1) rest hr
        obtain ⟨hid, hprint, hflat⟩ := costRow_fields _ _ _ _ _ _ _ hc
        refine ⟨by simp [hlen], ?_⟩
        intro i hi
        cases i with
        | zero => simpa using ⟨hid, hprint, hflat⟩
        | succ n =>
          have hn : n < rest.length := by simpa using hi
          have := hall n hn
          simpa [Nat.add_assoc, Nat.add_comm, Nat.add_left_comm] using this

lemma processJ826_spec (prices : PriceDict) :
    ∀ (rows : List Row) (acc res : List CostResult),
      processJ826 prices acc rows = Except.ok res →
      ∃ tail, res = acc ++ tail ∧ tail.length = rows.length ∧
        ∀ i (h : i < tail.length),
          tail[i].job_id = acc.length + i + 1 ∧ tail[i].printer = "J826" ∧
          tail[i].flat_fee = 7.22 := by
  intro rows
  induction rows with
  | nil =>
    intro acc res h
    simp only [processJ826, Except.ok.injEq] at h
    subst h
    exact ⟨[], by simp, rfl, fun i hi => absurd hi (by simp)⟩
  | cons r rs ih =>
    intro acc res h
    rw [processJ826] at h
    cases hc : costRow prices "J826" 7.22 j826_materials (acc.length + 1) r with
    | error e => rw [hc] at h; simp at h
    | ok c =>
      rw [hc] at h
      obtain ⟨tail2, hres, hlen, hall⟩ := ih (acc ++ [c]) res h
      obtain ⟨hid, hprint, hflat⟩ := costRow_fields _ _ _ _ _ _ _ hc
      refine ⟨c :: tail2, by simp [hres], by simp [hlen], ?_⟩
      intro i hi
      cases i with
      | zero => simpa using ⟨hid, hprint, hflat⟩
      | succ n =>
        have hn : n < tail2.length := by simpa using hi
        have := hall n hn
        simp only [List.length_append, List.length_cons, List.length_nil] at this
        simpa [Nat.add_assoc, Nat.add_comm, Nat.add_left_comm] using this

lemma getElem_append_lt {α : Type} (as bs : List α) (i : Nat) (h1 : i < as.length)
    (h2 : i < (as ++ bs).length) : (as ++ bs)[i] = as[i] := by
  induction as generalizing i with
  | nil => simp at h1
  | cons a as ih =>
    cases i with
    | zero => rfl
    | succ n =>
      have hn : n < as.length := by simpa using h1
      simpa using ih n hn (by simpa using h2)

lemma getElem_append_ge {α : Type} (as bs : List α) (i : Nat) (h1 : as.length ≤ i)
    (h2 : i < (as ++ bs).length) (h3 : i - as.length < bs.length) :
    (as ++ bs)[i] = bs[i - as.length] := by
  induction as generalizing i with
  | nil => simp
  | cons a as ih =>
    cases i with
    | zero => simp at h1
    | succ n =>
      have hn : as.length ≤ n := by simpa using h1
      have := ih n hn (by simpa using h2) (by simpa using h3)
      simpa using this

/-!  Helper lemmas about strings and column matching. -/

lemma pySplit_ne_nil (sep : Char) (l : List Char) : pySplit sep l ≠ [] := by
  cases l with
  | nil => simp [pySplit]
  | cons c cs =>
    rw [pySplit]
    by_cases h : c = sep
    · simp [h]
    · simp only [h, if_false]
      cases hr : pySplit sep cs with
      | nil => simp
      | cons p ps => simp

lemma pySplit_not_mem {sep : Char} {l : List Char} (h : sep ∉ l) : pySplit sep l = [l] := by
  induction l with
  | nil => rfl
  | cons c cs ih =>
    have hc : c ≠ sep := fun e => h (by simp [e])
    have hcs : sep ∉ cs := fun e => h (by simp [e])
    rw [pySplit]
    simp only [hc, if_false]
    rw [ih hcs]

lemma pySplit_append {sep : Char} {l1 l2 : List Char} (h : sep ∉ l1) :
    pySplit sep (l1 ++ sep :: l2) = l1 :: pySplit sep l2 := by
  induction l1 with
  | nil => simp [pySplit]
  | cons c cs ih =>
    have hc : c ≠ sep := fun e => h (by simp [e])
    have hcs : sep ∉ cs := fun e => h (by simp [e])
    rw [List.cons_append, pySplit]
    simp only [hc, if_false]
    rw [ih hcs]

lemma map_keep_of_all {f : Char → Char} {l : List Char} (h : ∀ c ∈ l, f c = c) :
    l.map f = l := by
  induction l with
  | nil => rfl
  | cons c cs ih =>
    simp only [List.map_cons]
    rw [h c (by simp), ih (fun x hx => h x (by simp [hx]))]

lemma digit_beq_false {c d : Char} (hc : c.isDigit = true) (hd : d.isDigit = false) :
    (c == d) = false := by
  by_contra hne
  have : c = d := by
    have : (c == d) = true := by
      cases hcd : c == d
      · exact absurd hcd hne
      · rfl
    exact eq_of_beq this
  rw [this] at hc
  rw [hc] at hd
  exact Bool.noConfusion hd

lemma digit_ne {c d : Char} (hc : c.isDigit = true) (hd : d.isDigit = false) : c ≠ d := by
  intro e
  rw [e] at hc
  rw [hc] at hd
  exact Bool.noConfusion hd

/-- A column matched by a non-empty keyword is itself non-empty. -/
lemma keywordMatches_ne_empty {kw col : String} (hkw : kw.toList ≠ [])
    (h : keywordMatches kw col = true) : col.toList ≠ [] := by
  intro hcol
  rw [keywordMatches, hcol] at h
  simp only [lowerStr, List.map_nil] at h
  have : pyStrip [] = ([] : List Char) := rfl
  rw [this] at h
  rw [isSubstr] at h
  simp only [List.isEmpty_iff] at h
  exact hkw (by simpa [lowerStr] using h)

/-- A successful find_matching_column result was matched by some keyword. -/
lemma find_matching_column_some {cols kws : List String} {c : String}
    (h : find_matching_column cols kws = some c) : matchesAnyKeyword kws c = true := by
  induction cols with
  | nil => simp [find_matching_column] at h
  | cons col rest ih =>
    rw [find_matching_column] at h
    by_cases hm : matchesAnyKeyword kws col
    · rw [if_pos hm] at h
      cases h
      exact hm
    · rw [if_neg hm] at h
      exact ih h

/-- A column found from a list of non-empty keywords is truthy. -/
lemma find_matching_column_truthy {cols kws : List String} {c : String}
    (hkws : ∀ kw ∈ kws, kw.toList ≠ [])
    (h : find_matching_column cols kws = some c) : truthyCol (some c) = true := by
  have hm := find_matching_column_some h
  rw [matchesAnyKeyword, List.any_eq_true] at hm
  obtain ⟨kw, hkwmem, hkwm⟩ := hm
  have := keywordMatches_ne_empty (hkws kw hkwmem) hkwm
  have hne : c.data ≠ [] := this
  simp [truthyCol, List.isEmpty_iff, hne]

/-- The contribution of a material pair depends on the row only through the
cell of its volume column. -/
lemma contrib_congr (prices : PriceDict) (family : String) {r1 r2 : Row}
    (p : String × String) (h : r1.lookup p.2 = r2.lookup p.2) :
    contrib prices family r1 p = contrib prices family r2 p := by
  unfold contrib
  rw [h]

/-- The material loop depends on the row only through the cells of the
volume columns it reads. -/
lemma filamentFeeAux_congr (prices : PriceDict) (family : String) {r1 r2 : Row}
    (mats : List (String × String)) (acc : ℚ)
    (h : ∀ p ∈ mats, r1.lookup p.2 = r2.lookup p.2) :
    filamentFeeAux prices family r1 acc mats = filamentFeeAux prices family r2 acc mats := by
  induction mats generalizing acc with
  | nil => rfl
  | cons p ps ih =>
    rw [filamentFeeAux, filamentFeeAux, contrib_congr prices family p (h p (by simp))]
    cases contrib prices family r2 p with
    | error e => rfl
    | ok c => exact ih (acc + c) (fun q hq => h q (by simp [hq]))

/-- The value of one numeric Family B field as a function of the label
lookup in the paired data. -/
lemma safe_float_dataGet (d : List (String × String)) (lab : String) :
    (d.lookup lab = none → safe_float (pyStripS (dataGet d lab "0")) = 0) ∧
    (∀ v, d.lookup lab = some v →
      safe_float (pyStripS (dataGet d lab "0")) = (pyFloat (pyStrip v.toList)).getD 0) := by
  constructor
  · intro h
    rw [dataGet, h]
    decide
  · intro v h
    rw [dataGet, h]
    have hts : (pyStripS v).toList = pyStrip v.toList := rfl
    rw [safe_float, hts]
    cases pyFloat (pyStrip v.toList) with
    | none => rfl
    | some q => rfl

/-- The supported duration form, at the character-list level: with digit
strings around the unit markers, the output keeps the source space and the
zfill changes nothing. -/
lemma formatted_time_core_eq (A B : List Char) (_hA : A ≠ []) (hB : B ≠ [])
    (hdA : ∀ c ∈ A, c.isDigit = true) (hdB : ∀ c ∈ B, c.isDigit = true) :
    formatted_time_core (A ++ 'h' :: ' ' :: (B ++ ['m'])) = A ++ ':' :: ' ' :: B := by
  have hAh : ∀ c ∈ A, (c == 'h') = false := fun c hc => digit_beq_false (hdA c hc) (by decide)
  have hAm : ∀ c ∈ A, (c == 'm') = false := fun c hc => digit_beq_false (hdA c hc) (by decide)
  have hBh : ∀ c ∈ B, (c == 'h') = false := fun c hc => digit_beq_false (hdB c hc) (by decide)
  have hBm : ∀ c ∈ B, (c == 'm') = false := fun c hc => digit_beq_false (hdB c hc) (by decide)
  have hcond : ((A ++ 'h' :: ' ' :: (B ++ ['m'])).any (fun c => c == 'h') &&
      (A ++ 'h' :: ' ' :: (B ++ ['m'])).any (fun c => c == 'm')) = true := by
    simp
  have hmap : (A ++ 'h' :: ' ' :: (B ++ ['m'])).map (fun c => if c == 'h' then ':' else c) =
      A ++ ':' :: ' ' :: (B ++ ['m']) := by
    simp only [List.map_append, List.map_cons, List.map_nil]
    rw [map_keep_of_all (fun c hc => by simp [hAh c hc]),
        map_keep_of_all (fun c hc => by simp [hBh c hc])]
    simp
  have hfilter : (A ++ ':' :: ' ' :: (B ++ ['m'])).filter (fun c => !(c == 'm')) =
      A ++ ':' :: ' ' :: B := by
    simp only [List.filter_append, List.filter_cons]
    rw [List.filter_eq_self.mpr (fun c hc => by simp [hAm c hc]),
        List.filter_eq_self.mpr (fun c hc => by simp [hBm c hc])]
    simp
  have hAns : ':' ∉ A := fun hmem => absurd (hdA ':' hmem) (by decide)
  have hBns : (':' : Char) ∉ ' ' :: B := by
    intro hmem
    rcases List.mem_cons.mp hmem with h1 | h2
    · exact absurd h1 (by decide)
    · exact absurd (hdB ':' h2) (by decide)
  have hsplit : pySplit ':' (A ++ ':' :: (' ' :: B)) = [A, ' ' :: B] := by
    rw [pySplit_append hAns, pySplit_not_mem hBns]
  have h2 : 2 ≤ (' ' :: B).length := by
    cases B with
    | nil => exact absurd rfl hB
    | cons b bs => simp [List.length_cons]
  have hz : zfill 2 (' ' :: B) = ' ' :: B := by
    rw [zfill, if_pos h2] <;> intro rest hx <;> simp at hx
  rw [formatted_time_core, hcond]
  simp only [if_true]
  rw [hmap, hfilter]
  rw [show A ++ ':' :: ' ' :: B = A ++ ':' :: (' ' :: B) from rfl, hsplit]
  simp only [List.getD_cons_zero, List.getD_cons_succ]
  rw [hz]

/-- C3, corrected.  For every duration string of the supported form int h
space int m, the canonical print-time string keeps the source space in front
of the minutes and gets no zero padding (3h 5m gives 3: 5, 3h 55m gives
3: 55); and every string that does not contain both an h character and an m
character yields exactly 0:00. -/
theorem C3_amended_time_format :
    (∀ A B : List Char, A ≠ [] → B ≠ [] →
      (∀ c ∈ A, c.isDigit = true) → (∀ c ∈ B, c.isDigit = true) →
      formatted_time ⟨A ++ 'h' :: ' ' :: (B ++ ['m'])⟩ = ⟨A ++ ':' :: ' ' :: B⟩) ∧
    (∀ s : String,
      ((s.toList.any fun c => c == 'h') && (s.toList.any fun c => c == 'm')) = false →
      formatted_time s = "0:00") := by
  constructor
  · intro A B hA hB hdA hdB
    exact congrArg String.mk (formatted_time_core_eq A B hA hB hdA hdB)
  · intro s h
    have hc : formatted_time_core s.toList = ['0', ':', '0', '0'] := by
      rw [formatted_time_core, h]
      simp
    have h2 : formatted_time s = ⟨formatted_time_core s.toList⟩ := rfl
    rw [h2, hc]

/-- C3: the claim fails on the code at the supported input 3h 5m, whose
canonical value is 3: 5 and not the zero-padded 3:05 the claim states. -/
theorem C3_counterexample :
    formatted_time "3h 5m" = "3: 5" ∧ formatted_time "3h 5m" ≠ "3:05" := by
  constructor <;> decide

/-- C3 witness: the amended statement evaluated at 3h 55m and at abc. -/
theorem C3_amended_time_format_witness :
    formatted_time "3h 55m" = "3: 55" ∧ formatted_time "abc" = "0:00" := by
  constructor
  · exact C3_amended_time_format.1 ['3'] ['5', '5'] (by decide) (by decide)
      (by decide) (by decide)
  · exact C3_amended_time_format.2 "abc" (by decide)

/-- C1: on every canonical Family A record the PC-ABS BLK pair of the F370
material table contributes exactly 0, because its volume column ABS in cm3
is not a column the Family A Normalizer emits; the filament fee is
insensitive to the PC-ABS BLK value and only the TPU 92A - Black and QSR
support pairs take part in it. -/
theorem C1_pc_abs_contributes_zero :
    (∀ (prices : PriceDict) (r : CanonRecordA),
      contrib prices "F370" (toRowA r) ("PC-ABS BLK", "ABS in cm3") = Except.ok 0) ∧
    (∀ (prices : PriceDict) (r : CanonRecordA) (v w : Val),
      filamentFee prices "F370" f370_materials (toRowA { r with pc_abs := v }) =
        filamentFee prices "F370" f370_materials (toRowA { r with pc_abs := w })) ∧
    (∀ (prices : PriceDict) (r : CanonRecordA),
      filamentFee prices "F370" f370_materials (toRowA r) =
        filamentFee prices "F370"
          [("TPU 92A - Black", "TPU 92A - Black"), ("QSR support", "QSR support")]
          (toRowA r)) := by
  refine ⟨fun prices r => rfl, ?_, ?_⟩
  · intro prices r v w
    simp only [filamentFee]
    apply filamentFeeAux_congr
    intro p hp
    simp only [f370_materials, List.mem_cons, List.not_mem_nil, or_false] at hp
    rcases hp with rfl | rfl | rfl <;> rfl
  · intro prices r
    have h1 : contrib prices "F370" (toRowA r) ("PC-ABS BLK", "ABS in cm3") =
        Except.ok 0 := rfl
    rw [filamentFee, filamentFee, f370_materials, filamentFeeAux, h1]
    dsimp only
    norm_num

unseal Rat.mul Rat.add Rat.sub Rat.inv Rat.ofScientific in
/-- C2: the price-table parser evaluated at the three example lines of the
claim.  The first line stores reference volume 10003, not 1000: the digit 3
of the unit cm3 survives the non-digit strip.  The comment line yields no
entry and the empty-volume line yields a cost-only entry, as claimed. -/
theorem C2_code_eval :
    parse_material_cost ["F370; PC-ABS BLK; 1000 cm3; $100.50"] =
      Except.ok [(("F370", "PC-ABS BLK"), ⟨some 10003, 100.50⟩)] ∧
    parse_material_cost [" ** annotation line"] = Except.ok [] ∧
    parse_material_cost ["F370; PC-ABS BLK; ; $50"] =
      Except.ok [(("F370", "PC-ABS BLK"), ⟨none, 50⟩)] := by
  refine ⟨by decide, by decide, by decide⟩

unseal Rat.mul Rat.add Rat.sub Rat.inv Rat.ofScientific in
/-- C4: on rows whose read cells are numeric or missing (the canonical
shape), one engine row is the claimed formula: the filament fee is the sum
of the per-pair contributions, each contribution is value times reference
cost over reference volume exactly when the field is present and positive
and the price entry exists with a usable reference volume, and 0 in every
other case, with both reported fees rounded to two digits; the concrete
anchors of the claim evaluate as stated. -/
theorem C4_filament_fee_formula :
    (∀ (prices : PriceDict) (family : String) (flat : ℚ) (mats : List (String × String))
        (row : Row) (jobId : Nat) (cname : Val),
      (∀ p ∈ mats, isTxtCell (row.lookup p.2) = false) →
      row.lookup "Company Name" = some cname →
      costRow prices family flat mats jobId row =
        Except.ok ⟨jobId, family,
          pyRound 2 ((mats.map (specContribution prices family row)).sum), flat,
          pyRound 2 ((mats.map (specContribution prices family row)).sum + flat), cname⟩) ∧
    (∀ (prices : PriceDict) (family : String) (row : Row) (p : String × String),
      isTxtCell (row.lookup p.2) = false →
      contrib prices family row p = Except.ok (specContribution prices family row p)) ∧
    contrib [(("F370", "PC-ABS BLK"), ⟨some 100, 50⟩)] "F370"
      [("ABS in cm3", Val.num 10)] ("PC-ABS BLK", "ABS in cm3") = Except.ok 5 ∧
    pyRound 2 (3333 / 1000 + 1625 / 100) = 1958 / 100 := by
  refine ⟨?_, ?_, by decide, by decide⟩
  · intro prices family flat mats row jobId cname hts hcn
    exact costRow_eq prices family flat mats jobId row cname hts hcn
  · intro prices family row p h
    exact contrib_spec prices family row p h

unseal Rat.mul Rat.add Rat.sub Rat.inv Rat.ofScientific in
/-- C4 witness: the formula applied to a row with only a company cell. -/
theorem C4_filament_fee_formula_witness :
    costRow [] "F370" 16.25 f370_materials 1 [("Company Name", Val.txt "Acme")] =
      Except.ok ⟨1, "F370", 0, 16.25, 16.25, Val.txt "Acme"⟩ := by
  have h := C4_filament_fee_formula.1 [] "F370" 16.25 f370_materials
      [("Company Name", Val.txt "Acme")] 1 (Val.txt "Acme") (by decide) (by decide)
  exact h.trans (by decide)

/-- A canonical Family A row with no detected material usage. -/
def rowA0 : Row := toRowA ⟨Val.txt "1:00", Val.num 0, Val.num 0, Val.num 0, Val.txt "Acme"⟩

/-- A canonical Family B row with no material usage. -/
def rowB0 : Row := toRowB ⟨"0:00", 0, 0, 0, 0, "Beta"⟩

/-- The expected engine output on two zero-material Family A rows followed
by one Family B row. -/
def resC5 : List CostResult :=
  [⟨1, "F370", 0, 16.25, 16.25, Val.txt "Acme"⟩,
   ⟨2, "F370", 0, 16.25, 16.25, Val.txt "Acme"⟩,
   ⟨3, "J826", 0, 7.22, 7.22, Val.txt "Beta"⟩]

unseal Rat.mul Rat.add Rat.sub Rat.inv Rat.ofScientific in
/-- C5: in every successful engine run the Family A rows occupy the first
positions and the Family B rows the rest, job ids are the one-based
positions (sequential and continuous across the two families), the flat fee
is 16.25 on every Family A row and 7.22 on every Family B row; and the
concrete run of the claim (two zero-material Family A records, then one
Family B record) gives filament fee 0, total 16.25, ids 1 and 2, then id 3
with flat fee 7.22. -/
theorem C5_ordering_ids_flat_fees :
    (∀ (prices : PriceDict) (a b : List Row) (res : List CostResult),
      calculate_costs prices a b = Except.ok res →
      res.length = a.length + b.length ∧
      ∀ i (h : i < res.length),
        res[i].job_id = i + 1 ∧
        (i < a.length → res[i].printer = "F370" ∧ res[i].flat_fee = 16.25) ∧
        (a.length ≤ i → res[i].printer = "J826" ∧ res[i].flat_fee = 7.22)) ∧
    calculate_costs [] [rowA0, rowA0] [rowB0] = Except.ok resC5 := by
  constructor
  · intro prices a b res h
    rw [calculate_costs] at h
    cases ha : processF370 prices 0 a with
    | error e => rw [ha] at h; simp at h
    | ok ra =>
      rw [ha] at h
      dsimp only at h
      obtain ⟨hlen_a, hA⟩ := processF370_spec prices a 0 ra ha
      obtain ⟨tail, rfl, hlen_t, hB⟩ := processJ826_spec prices b ra res h
      constructor
      · simp [hlen_a, hlen_t]
      · intro i hi
        simp only [List.length_append] at hi
        by_cases hlt : i < a.length
        · have hira : i < ra.length := by omega
          have hget : (ra ++ tail)[i] = ra[i] := getElem_append_lt ra tail i hira (by simp; omega)
          obtain ⟨hid, hpr, hfl⟩ := hA i hira
          refine ⟨?_, fun _ => ⟨by rw [hget]; exact hpr, by rw [hget]; exact hfl⟩,
            fun hge => absurd hge (by omega)⟩
          rw [hget, hid]
          omega
        · have hge : a.length ≤ i := by omega
          have hra_le : ra.length ≤ i := by omega
          have htb : i - ra.length < tail.length := by omega
          have hget : (ra ++ tail)[i] = tail[i - ra.length] :=
            getElem_append_ge ra tail i hra_le (by simp; omega) htb
          obtain ⟨hid, hpr, hfl⟩ := hB (i - ra.length) htb
          refine ⟨?_, fun hlt2 => absurd hlt2 (by omega),
            fun _ => ⟨by rw [hget]; exact hpr, by rw [hget]; exact hfl⟩⟩
          rw [hget, hid]
          omega
  · decide

unseal Rat.mul Rat.add Rat.sub Rat.inv Rat.ofScientific in
/-- C5 witness: the general statement applied to the concrete run. -/
theorem C5_ordering_ids_flat_fees_witness : resC5.length = 2 + 1 := by
  have h := C5_ordering_ids_flat_fees.1 [] [rowA0, rowA0] [rowB0] resC5 (by decide)
  simpa using h.1

/-- C6: the claim fails on the code: a line that matches the pattern but
carries a cost text that is not a float literal makes the parser raise
instead of silently defaulting. -/
theorem C6_counterexample :
    parse_material_cost ["F370; X; 1; $abc"] = Except.error "ValueError" := by
  decide

/-- C6, corrected.  Lines holding the marker, blank lines, and lines the
pattern does not match never raise and produce no entry; but an unparsable
numeric value in a matching line propagates an error instead of silently
defaulting. -/
theorem C6_amended_parser_leniency :
    (∀ (d : PriceDict) (line : String),
      isSubstr ['*', '*'] line.toList = true ∨ (pyStrip line.toList).isEmpty = true ∨
        pyMatch (pyStrip line.toList) = none →
      parseStep d line = Except.ok d) ∧
    parse_material_cost ["F370; Nylon 12; 2 units; $x9"] = Except.error "ValueError" := by
  constructor
  · intro d line hcase
    rcases hcase with h | h | h
    · have h2 : isSubstr ['*', '*'] line.data = true := h
      simp [parseStep, h2]
    · have h2 : pyStrip line.data = [] := by simpa using h
      simp [parseStep, h2]
    · rw [parseStep]
      by_cases hc : (isSubstr ['*', '*'] line.toList || (pyStrip line.toList).isEmpty) = true
      · rw [if_pos hc]
      · rw [if_neg hc, h]
  · decide

/-- C6 witness: the amended statement applied to a free-text line. -/
theorem C6_amended_parser_leniency_witness :
    parseStep [] "free text annotation" = Except.ok [] :=
  C6_amended_parser_leniency.1 [] "free text annotation" (Or.inr (Or.inr (by decide)))

/-- C7: the material loop of the engine never raises on non-text cells: a
missing volume column, a price-table miss, and an entry with an unusable
(absent or zero) reference volume each contribute 0 without error; and when
the Company Name column is missing from a non-empty dataset of either
family the whole run fails with an error, so no result row is produced. -/
theorem C7_error_semantics :
    (∀ (prices : PriceDict) (family : String) (row : Row) (p : String × String),
      isTxtCell (row.lookup p.2) = false →
      ∃ q, contrib prices family row p = Except.ok q) ∧
    (∀ (prices : PriceDict) (family : String) (row : Row) (p : String × String),
      row.lookup p.2 = none → contrib prices family row p = Except.ok 0) ∧
    (∀ (prices : PriceDict) (family : String) (row : Row) (p : String × String) (v : ℚ),
      row.lookup p.2 = some (Val.num v) → prices.lookup (family, p.1) = none →
      contrib prices family row p = Except.ok 0) ∧
    (∀ (prices : PriceDict) (family : String) (row : Row) (p : String × String) (v : ℚ)
        (e : MaterialCostEntry),
      row.lookup p.2 = some (Val.num v) → prices.lookup (family, p.1) = some e →
      e.volume = none ∨ e.volume = some 0 →
      contrib prices family row p = Except.ok 0) ∧
    (∀ (prices : PriceDict) (a b : List Row),
      ((a ≠ [] ∧ ∀ r ∈ a, r.lookup "Company Name" = none) ∨
       (b ≠ [] ∧ ∀ r ∈ b, r.lookup "Company Name" = none)) →
      ∃ e, calculate_costs prices a b = Except.error e) := by
  refine ⟨?_, ?_, ?_, ?_, ?_⟩
  · intro prices family row p h
    exact ⟨specContribution prices family row p, contrib_spec prices family row p h⟩
  · intro prices family row p h
    simp [contrib, h]
  · intro prices family row p v h1 h2
    by_cases hv : 0 < v <;> simp [contrib, h1, h2, hv]
  · intro prices family row p v e h1 h2 h3
    rcases h3 with h3 | h3 <;> by_cases hv : 0 < v <;> simp [contrib, h1, h2, h3, hv]
  · intro prices a b hcase
    rcases hcase with ⟨hne, hall⟩ | ⟨hne, hall⟩
    · cases a with
      | nil => exact absurd rfl hne
      | cons r rs =>
        have hcost : costRow prices "F370" 16.25 f370_materials (0 + 1) r =
            Except.error "KeyError" := by
          rw [costRow, hall r (by simp)]
        have hproc : processF370 prices 0 (r :: rs) = Except.error "KeyError" := by
          rw [processF370, hcost]
        exact ⟨"KeyError", by rw [calculate_costs, hproc]⟩
    · cases b with
      | nil => exact absurd rfl hne
      | cons r rs =>
        cases ha : processF370 prices 0 a with
        | error e => exact ⟨e, by rw [calculate_costs, ha]⟩
        | ok ra =>
          have hcost : costRow prices "J826" 7.22 j826_materials (ra.length + 1) r =
              Except.error "KeyError" := by
            rw [costRow, hall r (by simp)]
          have hproc : processJ826 prices ra (r :: rs) = Except.error "KeyError" := by
            rw [processJ826, hcost]
          refine ⟨"KeyError", ?_⟩
          rw [calculate_costs, ha]
          exact hproc

/-- C7 witness: a one-row Family A dataset without a Company Name column
makes the whole run fail. -/
theorem C7_error_semantics_witness :
    ∃ e, calculate_costs [] [[("X", Val.num 1)]] [] = Except.error e :=
  C7_error_semantics.2.2.2.2 [] [[("X", Val.num 1)]] []
    (Or.inl ⟨by decide, by decide⟩)

/-- C8: the claim fails on the code: with the single field name space X and
the single synonym space x, the synonym is a case-insensitive substring of
the field name, yet no field is returned, because the source matches
against the whitespace-stripped field name. -/
theorem C8_counterexample :
    find_matching_column [" X"] [" x"] = none ∧
    isSubstr (lowerStr " x".toList) (lowerStr " X".toList) = true := by
  constructor <;> decide

/-- C8, corrected.  Field detection returns the first field, in declaration
order, whose whitespace-stripped lowercased name contains some lowercased
synonym as a substring, and returns no field exactly when no field matches
in that sense. -/
theorem C8_amended_column_matching : ∀ (cols kws : List String),
    find_matching_column cols kws = cols.find? (matchesAnyKeyword kws) ∧
    (find_matching_column cols kws = none ↔
      ∀ col ∈ cols, matchesAnyKeyword kws col = false) := by
  intro cols kws
  have heq : find_matching_column cols kws = cols.find? (matchesAnyKeyword kws) := by
    induction cols with
    | nil => rfl
    | cons col rest ih =>
      rw [find_matching_column]
      by_cases h : matchesAnyKeyword kws col
      · rw [if_pos h, List.find?_cons_of_pos _ h]
      · rw [if_neg h, List.find?_cons_of_neg _ (by simpa using h), ih]
  refine ⟨heq, ?_⟩
  rw [heq, List.find?_eq_none]
  constructor
  · intro h col hmem
    simpa using h col hmem
  · intro h col hmem
    simp [h col hmem]

/-- C8 witness: the amended statement applied to a matching column list. -/
theorem C8_amended_column_matching_witness :
    find_matching_column ["Foo"] ["f"] = some "Foo" := by
  have h := (C8_amended_column_matching ["Foo"] ["f"]).1
  exact h.trans (by decide)

unseal Rat.mul Rat.add Rat.sub Rat.inv Rat.ofScientific in
/-- C9: the claim fails on the code: a raw Family B input whose DraftGrey
value is the numeral -5 yields a negative canonical field, so the fields are
not always non-negative. -/
theorem C9_counterexample :
    (convert_j826_file ["DraftGrey (g)", "-5"]).draft_grey = -5 ∧
    ¬ 0 ≤ (convert_j826_file ["DraftGrey (g)", "-5"]).draft_grey := by
  constructor <;> decide

/-- C9, corrected.  Every numeric material field of a Family B canonical
record equals the parsed float value of the stripped source text when that
text parses, and 0 when the source label is absent (the literal default 0
is then parsed) or its value is unparsable; the field is therefore
non-negative exactly when the parsed source value is, and a negative
numeral produces a negative field. -/
theorem C9_amended_numeric_fields : ∀ cells : List String,
    (((buildDict (List.zip (evens cells) (odds cells))).lookup "DraftGrey (g)" = none →
        (convert_j826_file cells).draft_grey = 0) ∧
      (∀ v, (buildDict (List.zip (evens cells) (odds cells))).lookup "DraftGrey (g)" = some v →
        (convert_j826_file cells).draft_grey = (pyFloat (pyStrip v.toList)).getD 0)) ∧
    (((buildDict (List.zip (evens cells) (odds cells))).lookup "VeroUltraWhite (g)" = none →
        (convert_j826_file cells).vero_ultra_white = 0) ∧
      (∀ v, (buildDict (List.zip (evens cells) (odds cells))).lookup "VeroUltraWhite (g)" = some v →
        (convert_j826_file cells).vero_ultra_white = (pyFloat (pyStrip v.toList)).getD 0)) ∧
    (((buildDict (List.zip (evens cells) (odds cells))).lookup "VeroBlackPlus (g)" = none →
        (convert_j826_file cells).vero_black_plus = 0) ∧
      (∀ v, (buildDict (List.zip (evens cells) (odds cells))).lookup "VeroBlackPlus (g)" = some v →
        (convert_j826_file cells).vero_black_plus = (pyFloat (pyStrip v.toList)).getD 0)) ∧
    (((buildDict (List.zip (evens cells) (odds cells))).lookup "SUP706 (g)" = none →
        (convert_j826_file cells).sup706 = 0) ∧
      (∀ v, (buildDict (List.zip (evens cells) (odds cells))).lookup "SUP706 (g)" = some v →
        (convert_j826_file cells).sup706 = (pyFloat (pyStrip v.toList)).getD 0)) := by
  intro cells
  have hd := safe_float_dataGet (buildDict (List.zip (evens cells) (odds cells)))
  refine ⟨⟨fun hn => ?_, fun v hv => ?_⟩, ⟨fun hn => ?_, fun v hv => ?_⟩,
          ⟨fun hn => ?_, fun v hv => ?_⟩, ⟨fun hn => ?_, fun v hv => ?_⟩⟩
  · simpa [convert_j826_file] using (hd "DraftGrey (g)").1 hn
  · simpa [convert_j826_file] using (hd "DraftGrey (g)").2 v hv
  · simpa [convert_j826_file] using (hd "VeroUltraWhite (g)").1 hn
  · simpa [convert_j826_file] using (hd "VeroUltraWhite (g)").2 v hv
  · simpa [convert_j826_file] using (hd "VeroBlackPlus (g)").1 hn
  · simpa [convert_j826_file] using (hd "VeroBlackPlus (g)").2 v hv
  · simpa [convert_j826_file] using (hd "SUP706 (g)").1 hn
  · simpa [convert_j826_file] using (hd "SUP706 (g)").2 v hv

unseal Rat.mul Rat.add Rat.sub Rat.inv Rat.ofScientific in
/-- C9 witness: the amended statement applied to an unparsable value. -/
theorem C9_amended_numeric_fields_witness :
    (convert_j826_file ["DraftGrey (g)", "abc"]).draft_grey = 0 := by
  have h := (C9_amended_numeric_fields ["DraftGrey (g)", "abc"]).1.2 "abc" (by decide)
  exact h.trans (by decide)

/-- C10: a Family A input file with no company-name match is skipped
without crashing and contributes no canonical record to the combined
dataset; and a file whose company column is found but whose print-time or
support column is not is skipped with the diagnostic carrying all detected
field names. -/
theorem C10_skip_semantics : ∀ f : RawFile,
    (find_matching_column f.columns company_keywords = none →
      process_f370_file f = F370FileResult.skippedNoCompany ∧
      fileRecords f = [] ∧
      ∀ fs1 fs2, process_f370_files (fs1 ++ f :: fs2) = process_f370_files (fs1 ++ fs2)) ∧
    (∀ c, find_matching_column f.columns company_keywords = some c →
      (find_matching_column f.columns time_keywords = none ∨
       find_matching_column f.columns support_keywords = none) →
      process_f370_file f = F370FileResult.skippedMissingCritical f.columns ∧
      fileRecords f = []) := by
  intro f
  constructor
  · intro hn
    have hp : process_f370_file f = F370FileResult.skippedNoCompany := by
      simp [process_f370_file, hn, truthyCol]
    refine ⟨hp, by simp [fileRecords, hp], ?_⟩
    intro fs1 fs2
    simp [process_f370_files, fileRecords, hp]
  · intro c hc hcrit
    have htr : truthyCol (some c) = true :=
      find_matching_column_truthy (by decide) hc
    have hcd : ¬ c.data = [] := by simpa [truthyCol, List.isEmpty_iff] using htr
    have hp : process_f370_file f = F370FileResult.skippedMissingCritical f.columns := by
      rcases hcrit with ht | hs
      · simp [process_f370_file, hc, ht, truthyCol, hcd]
      · simp [process_f370_file, hc, hs, truthyCol, hcd]
    exact ⟨hp, by simp [fileRecords, hp]⟩

/-- C10 witness: a file whose only column matches nothing is skipped. -/
theorem C10_skip_semantics_witness :
    process_f370_file ⟨["Foo"], []⟩ = F370FileResult.skippedNoCompany :=
  ((C10_skip_semantics ⟨["Foo"], []⟩).1 (by decide)).1
